import Mathlib

set_option maxHeartbeats 1000000
set_option maxRecDepth 4096
set_option autoImplicit false

/-!
Verification of the field-normalization and compound-key matching procedures of the
data-comparison repository.  The scripts under scripts/ run SQL (DuckDB) queries over
two person-record datasets; here the relevant queries are shallowly embedded as pure
functions over lists of records.  SQL NULL is modelled as `Option.none`; SQL
three-valued equality on possibly-NULL text values is `sqlEq` (true only when both operands are
non-NULL and equal, which is what counts under a WHERE / ON clause).
-/

namespace DataCmp

/-- A possibly-NULL SQL text value. -/
abbrev SqlVal := Option String

/-- SQL equality `x = y` as used in ON / WHERE clauses: it counts (is true) exactly
when both sides are non-NULL and the strings are equal; a NULL operand yields
NULL, which filters the row out, so it is modelled as `false`. -/
def sqlEq (x y : SqlVal) : Bool :=
  match x, y with
  | some a, some b => a == b
  | _, _ => false

/-- SQL string concatenation `x || y`: NULL-propagating. -/
def sqlConcat (x y : SqlVal) : SqlVal :=
  match x, y with
  | some a, some b => some (a ++ b)
  | _, _ => none

/-- SQL `COALESCE(x, y)`. -/
def sqlCoalesce (x y : SqlVal) : SqlVal :=
  match x with
  | some a => some a
  | none => y

/-- The chain `x1 || ' ' || x2 || ' ' || ... || xn` of NULL-propagating SQL
concatenation with single-space separators. -/
def sqlJoinSpace : List SqlVal → SqlVal
  | [] => some ""
  | [x] => x
  | x :: rest => sqlConcat x (sqlConcat (some " ") (sqlJoinSpace rest))

/-- Whitespace characters removed by SQL `TRIM` / Python `str.strip`. -/
def isWs (c : Char) : Bool := c == ' ' || c == '\t' || c == '\n' || c == '\r'

/-- SQL `TRIM` / Python `str.strip`: remove surrounding whitespace.  (DuckDB TRIM
strips spaces, Python strip also strips tabs and newlines; on the space-padded
values appearing in this development the two coincide.) -/
def sqlTrim (s : String) : String :=
  String.mk (((s.toList.dropWhile isWs).reverse.dropWhile isWs).reverse)

/-- SQL `UPPER` / Python `str.upper` (ASCII case folding, which covers the data at
issue). -/
def sqlUpper (s : String) : String := String.mk (s.toList.map Char.toUpper)

/-- Python `str.lower` (ASCII case folding). -/
def sqlLower (s : String) : String := String.mk (s.toList.map Char.toLower)

/-- The normalization applied by `create_optimized_database`
(comprehensive_match_analysis_v11.py lines 145-150): `UPPER(TRIM(col))` with SQL
NULL propagation.  Note that an empty or whitespace-only string is NOT NULL: it
normalizes to `some ""`. -/
def normalizeUpperTrim (v : SqlVal) : SqlVal :=
  v.map (fun s => sqlUpper (sqlTrim s))

/-- Modelled from the spec, for comparison with the code: section 4.1 defines
`normalize(v) = null if v is null or v.strip() == "" else v.strip().upper()`.
The code (see `normalizeUpperTrim`) differs on whitespace-only values. -/
def normalizeSpec (v : SqlVal) : SqlVal :=
  match v with
  | none => none
  | some s => if sqlTrim s = "" then none else some (sqlUpper (sqlTrim s))

/-- A raw source row with the columns the matching scripts read (each source
dataset uses its own column names for these canonical fields; values are
possibly-NULL text, numeric postcodes being modelled after their
`CAST(... AS VARCHAR)` text form). -/
structure RawRecord where
  title : SqlVal := none
  first_name : SqlVal := none
  surname : SqlVal := none
  gender : SqlVal := none
  email_std : SqlVal := none
  email_hash : SqlVal := none
  mobile : SqlVal := none
  landline : SqlVal := none
  suburb : SqlVal := none
  state : SqlVal := none
  postcode : SqlVal := none
deriving DecidableEq, Repr

/-- A row of the normalized tables (`source_data` / `alivedata`, also named
`datadirect` / `ad_consumers`) produced by `create_optimized_database` in
comprehensive_match_analysis_v11.py and consumed by compound_match_analysis.py,
detailed_match_report.py and hash_validation_analysis.py. -/
structure NormRecord where
  title : SqlVal := none
  first_name : SqlVal := none
  surname : SqlVal := none
  gender : SqlVal := none
  email_std : SqlVal := none
  email_hash : SqlVal := none
  mobile : SqlVal := none
  landline : SqlVal := none
  suburb : SqlVal := none
  state : SqlVal := none
  postcode : SqlVal := none
  full_name : SqlVal := none
  name_suburb_postcode : SqlVal := none
deriving DecidableEq, Repr

/-- The SELECT of `create_optimized_database` (comprehensive_match_analysis_v11.py
lines 140-164) for the source table: `UPPER(TRIM(col))` on the text fields,
`TRIM` only on mobile and landline, the postcode kept as its VARCHAR cast, and
the compound columns built as `UPPER(TRIM(f1 || ' ' || f2 || ...))` with
NULL-propagating concatenation. -/
def mkSourceRecord (r : RawRecord) : NormRecord :=
  { title := normalizeUpperTrim r.title
    first_name := normalizeUpperTrim r.first_name
    surname := normalizeUpperTrim r.surname
    gender := normalizeUpperTrim r.gender
    email_std := normalizeUpperTrim r.email_std
    email_hash := normalizeUpperTrim r.email_hash
    mobile := r.mobile.map sqlTrim
    landline := r.landline.map sqlTrim
    postcode := r.postcode
    full_name :=
      normalizeUpperTrim (sqlJoinSpace [r.first_name, r.surname])
    name_suburb_postcode :=
      normalizeUpperTrim (sqlJoinSpace [r.first_name, r.surname, r.suburb, r.postcode]) }

/-! ### Generic join counting

`SELECT COUNT(*) FROM A d INNER JOIN B a ON cond WHERE filt` counts the pairs of
the cartesian product satisfying both the join condition and the filter;
`SELECT COUNT(*) FROM A d ANTI JOIN B a ON cond WHERE filt(d)` (equivalently a
`NOT EXISTS` correlated subquery) counts the left rows passing the filter with no
right row satisfying the condition. -/

/-- Row count of an inner join with a WHERE filter. -/
def innerJoinCount {α β : Type} (A : List α) (B : List β)
    (cond : α → β → Bool) (filt : α → β → Bool) : Nat :=
  (A.product B).countP fun p => cond p.1 p.2 && filt p.1 p.2

/-- Row count of an anti join (left rows without a condition partner) with a WHERE
filter on the left rows. -/
def antiJoinCount {α β : Type} (A : List α) (B : List β)
    (cond : α → β → Bool) (filt : α → Bool) : Nat :=
  A.countP fun d => filt d && !(B.any fun b => cond d b)

/-- Key values are unique per record on a side: two distinct records never carry
the same non-null key value. -/
def KeyUnique {α κ : Type} (key : α → Option κ) (l : List α) : Prop :=
  l.Pairwise fun x y => key x = none ∨ key x ≠ key y

instance decKeyUnique {α κ : Type} [DecidableEq κ] (key : α → Option κ) (l : List α) :
    Decidable (KeyUnique key l) :=
  inferInstanceAs (Decidable (l.Pairwise _))

/-! ### compound_match_analysis.py — `analyze_compound_matches`

The script reads the normalized tables `datadirect` and `ad_consumers` and, per
compound pattern, runs an INNER JOIN count, a `datadirect ANTI JOIN ad_consumers`
count and an `ad_consumers ANTI JOIN datadirect` count.  The WHERE clause of the
anti joins is derived from the match filter by string surgery:
`filter_cond.split(' AND a.')[0]` for the DD side (keeping the d-side conjuncts)
and `filter_cond.replace('d.', 'a.').split(' AND a.')[0]` for the AD side, which
keeps ONLY THE FIRST conjunct (`a.first_name IS NOT NULL`) whenever the filter
has more than one a-side conjunct. -/

namespace CMA

/-- Join condition of the FullName pattern (line 33): `d.full_name = a.full_name`. -/
def fullNameCond (d a : NormRecord) : Bool := sqlEq d.full_name a.full_name

/-- Match filter of the FullName pattern (line 46). -/
def fullNameFilter (d a : NormRecord) : Bool :=
  d.full_name.isSome && a.full_name.isSome

/-- `matches` for FullName (lines 79-83). -/
def fullNameMatches (A B : List NormRecord) : Nat :=
  innerJoinCount A B fullNameCond fullNameFilter

/-- `dd_total` for FullName (line 44): records with non-null full_name. -/
def fullNameDDTotal (A : List NormRecord) : Nat :=
  A.countP fun d => d.full_name.isSome

/-- `ad_total` for FullName (line 45). -/
def fullNameADTotal (B : List NormRecord) : Nat :=
  B.countP fun a => a.full_name.isSome

/-- `dd_only` for FullName (lines 86-90); the split WHERE clause is
`d.full_name IS NOT NULL`. -/
def fullNameDDOnly (A B : List NormRecord) : Nat :=
  antiJoinCount A B fullNameCond fun d => d.full_name.isSome

/-- `ad_only` for FullName (lines 92-98); the derived WHERE clause is
`a.full_name IS NOT NULL`. -/
def fullNameADOnly (A B : List NormRecord) : Nat :=
  antiJoinCount B A (fun a d => fullNameCond d a) fun a => a.full_name.isSome

/-- Join condition of the NameSuburb pattern (line 34):
`d.first_name = a.first_name AND d.surname = a.surname AND d.suburb = a.suburb`. -/
def nsCond (d a : NormRecord) : Bool :=
  sqlEq d.first_name a.first_name && sqlEq d.surname a.surname
    && sqlEq d.suburb a.suburb

/-- Eligibility used for the NameSuburb totals and match filter (lines 62-76):
first_name, surname, suburb AND postcode non-null (postcode is filtered on even
though it is not part of the join condition). -/
def nsEligible (r : NormRecord) : Bool :=
  r.first_name.isSome && r.surname.isSome && r.suburb.isSome && r.postcode.isSome

/-- `matches` for NameSuburb (lines 79-83): filter on both sides. -/
def nsMatches (A B : List NormRecord) : Nat :=
  innerJoinCount A B nsCond fun d a => nsEligible d && nsEligible a

/-- `dd_total` for NameSuburb (lines 63-67). -/
def nsDDTotal (A : List NormRecord) : Nat := A.countP nsEligible

/-- `ad_total` for NameSuburb (lines 68-72). -/
def nsADTotal (B : List NormRecord) : Nat := B.countP nsEligible

/-- `dd_only` for NameSuburb (lines 86-90): `filter_cond.split(' AND a.')[0]`
keeps the four d-side conjuncts. -/
def nsDDOnly (A B : List NormRecord) : Nat :=
  antiJoinCount A B nsCond nsEligible

/-- `ad_only` for NameSuburb (lines 92-98):
`filter_cond.replace('d.', 'a.').split(' AND a.')[0]` evaluates to the single
conjunct `a.first_name IS NOT NULL` (the replace turns every later conjunct into
an `AND a.` separator and the split drops them all). -/
def nsADOnly (A B : List NormRecord) : Nat :=
  antiJoinCount B A (fun a d => nsCond d a) fun a => a.first_name.isSome

/-- The NameSuburb join key of a record: the triple of the three joined columns,
non-null only when all three are. -/
def nsKey (r : NormRecord) : Option (String × String × String) :=
  match r.first_name, r.surname, r.suburb with
  | some f, some s, some u => some (f, s, u)
  | _, _, _ => none

end CMA

/-! ### detailed_match_report.py — `generate_detailed_match_report`

Per single-column key: `matches` by INNER JOIN on `d.col = a.col` with both sides
IS NOT NULL (lines 84-89), per-side totals as the rows with the column non-null
(lines 73-81), anti-join counts with the same one-column filter (lines 93-105),
and the four derived statistics with zero-denominator guards (lines 107-116). -/

namespace DMR

/-- `matches` for a key column (lines 84-89). -/
def fieldMatches (key : NormRecord → SqlVal) (A B : List NormRecord) : Nat :=
  innerJoinCount A B (fun d a => sqlEq (key d) (key a))
    fun d a => (key d).isSome && (key a).isSome

/-- `dd_field_count` (lines 73-76). -/
def fieldDDTotal (key : NormRecord → SqlVal) (A : List NormRecord) : Nat :=
  A.countP fun d => (key d).isSome

/-- `ad_field_count` (lines 78-81). -/
def fieldADTotal (key : NormRecord → SqlVal) (B : List NormRecord) : Nat :=
  B.countP fun a => (key a).isSome

/-- `dd_only` (lines 93-97). -/
def fieldDDOnly (key : NormRecord → SqlVal) (A B : List NormRecord) : Nat :=
  antiJoinCount A B (fun d a => sqlEq (key d) (key a)) fun d => (key d).isSome

/-- `ad_only` (lines 101-105). -/
def fieldADOnly (key : NormRecord → SqlVal) (A B : List NormRecord) : Nat :=
  antiJoinCount B A (fun a d => sqlEq (key d) (key a)) fun a => (key a).isSome

/-- Number of records on one side whose key column holds a given value. -/
def groupCount (key : NormRecord → SqlVal) (l : List NormRecord) (v : String) : Nat :=
  l.countP fun r => key r == some v

/-- The four derived ratios (exact rational arithmetic stands in for Python
floats; every division below is exact in the source as well only up to float
rounding, which does not affect the zero cases at issue). -/
structure MatchRatesVals where
  dd_match_rate : ℚ
  ad_match_rate : ℚ
  overlap_coefficient : ℚ
  jaccard_index : ℚ
deriving DecidableEq, Repr

/-- Statistics computation (lines 107-116): each ratio guarded by
`if denominator > 0 ... else 0`; `union_size = dd + ad - matches` is computed in
unbounded (possibly negative) integer arithmetic. -/
def computeStats (m dd_total ad_total : Nat) : MatchRatesVals :=
  { dd_match_rate := if dd_total > 0 then (m : ℚ) / dd_total * 100 else 0
    ad_match_rate := if ad_total > 0 then (m : ℚ) / ad_total * 100 else 0
    overlap_coefficient :=
      if min dd_total ad_total > 0 then (m : ℚ) / (min dd_total ad_total) else 0
    jaccard_index :=
      if ((dd_total : ℤ) + ad_total - m) > 0 then
        (m : ℚ) / (((dd_total : ℤ) + ad_total - m : ℤ) : ℚ)
      else 0 }

end DMR

/-! ### comprehensive_match_analysis.py — `comprehensive_match_analysis`

This script matches the two raw parquet files directly.  A DataDirect row and an
ad_consumers row with the columns the queries touch: -/

/-- Row of the DataDirect parquet file, with its own column names. -/
structure DDRaw where
  Title : SqlVal := none
  FirstName : SqlVal := none
  Surname : SqlVal := none
  Gender : SqlVal := none
  EmailStd : SqlVal := none
  Mobile : SqlVal := none
  Landline : SqlVal := none
  Suburb : SqlVal := none
  State : SqlVal := none
  Postcode : SqlVal := none
deriving DecidableEq, Repr

/-- Row of the ad_consumers parquet file, with its own column names. -/
structure ACRaw where
  title : SqlVal := none
  given_name_1 : SqlVal := none
  surname : SqlVal := none
  gender : SqlVal := none
  email : SqlVal := none
  mobile_text : SqlVal := none
  landline : SqlVal := none
  suburb : SqlVal := none
  state : SqlVal := none
  postcode_text : SqlVal := none
deriving DecidableEq, Repr

namespace CompMA

/-- LastName join condition (line 31):
`UPPER(TRIM(d.Surname)) = UPPER(TRIM(a.surname))`. -/
def lastNameCond (d : DDRaw) (a : ACRaw) : Bool :=
  sqlEq (normalizeUpperTrim d.Surname) (normalizeUpperTrim a.surname)

/-- LastName match filter (line 31):
`d.Surname IS NOT NULL AND a.surname IS NOT NULL`. -/
def lastNameFilter (d : DDRaw) (a : ACRaw) : Bool :=
  d.Surname.isSome && a.surname.isSome

/-- LastName `matches` (lines 42-46): INNER JOIN on the condition, WHERE the
filter. -/
def lastNameMatches (A : List DDRaw) (B : List ACRaw) : Nat :=
  innerJoinCount A B lastNameCond lastNameFilter

/-- LastName `dd_only` (lines 48-56): rows of DataDirect passing
`dd_filter = filter_cond.split(' AND a.')[0].replace('a.', 'd.')
           = "d.Surname IS NOT NULL"`
for which `NOT EXISTS` an ad_consumers row satisfying condition AND filter. -/
def lastNameDDOnly (A : List DDRaw) (B : List ACRaw) : Nat :=
  A.countP fun d =>
    d.Surname.isSome && !(B.any fun a => lastNameCond d a && lastNameFilter d a)

/-- LastName `ac_only` (lines 58-66): rows of ad_consumers passing
`ac_filter = filter_cond.split(' AND d.')[0].replace('d.', 'a.')
           = "a.Surname IS NOT NULL AND a.surname IS NOT NULL"`
(no ` AND d.` occurs, so the whole filter is renamed; DuckDB resolves the
identifier `a.Surname` case-insensitively to the same `surname` column, so the
clause is the surname non-null test twice) for which `NOT EXISTS` a DataDirect
row satisfying condition AND filter. -/
def lastNameACOnly (A : List DDRaw) (B : List ACRaw) : Nat :=
  B.countP fun a =>
    (a.surname.isSome && a.surname.isSome)
      && !(A.any fun d => lastNameCond d a && lastNameFilter d a)

/-- The all-fields concatenation key of lines 108-115: every column wrapped in
`COALESCE(col, '')`, so NULL constituents become empty strings and the key is
never NULL. -/
def allFieldsKey (d : DDRaw) : SqlVal :=
  normalizeUpperTrim (sqlJoinSpace
    [sqlCoalesce d.Title (some ""), sqlCoalesce d.FirstName (some ""),
     sqlCoalesce d.Surname (some ""), sqlCoalesce d.Gender (some ""),
     sqlCoalesce d.Landline (some ""), sqlCoalesce d.Mobile (some ""),
     sqlCoalesce d.EmailStd (some ""), sqlCoalesce d.Suburb (some ""),
     sqlCoalesce d.State (some ""), sqlCoalesce d.Postcode (some "")])

end CompMA

/-! ### comprehensive_match_analysis_v11.py — `comprehensive_anti_join_analysis`

The per-key loop (lines 317-405) wraps each key analysis in try/except: on an
exception it logs and `continue`s; on success it appends an `AntiJoinResult` to
`direct_results`.  The body of one iteration (three SQL queries, the rate
computations and the result-model validation) is abstracted below as an
`Except`-valued computation, which is what the try/except observes. -/

/-- The per-key result model (`AntiJoinResult`, lines 65-79; the float rate and
timing fields are irrelevant to the control flow and omitted). -/
structure AntiJoinRow where
  match_name : String
  match_count : Nat
  tpd_only : Nat
  ac_only : Nat
deriving DecidableEq, Repr

/-- The loop of `comprehensive_anti_join_analysis` (lines 317-405): each key
computation either yields a result row (appended to `direct_results`) or raises
(caught: the error is logged and the loop continues with the next key). -/
def runDirectMatches (keys : List (String × Except String AntiJoinRow)) :
    List AntiJoinRow :=
  keys.foldl
    (fun acc k =>
      match k.2 with
      | Except.ok r => acc ++ [r]
      | Except.error _ => acc)
    []

/-! ### SHA-256

`hash_validation_analysis.py` recomputes `hashlib.sha256(email.strip().lower()
.encode()).hexdigest()`.  The algorithm (FIPS 180-4) is embedded below over
byte lists, with 32-bit words carried as `Nat` reduced mod 2^32. -/

namespace SHA256

/-- Truncation to a 32-bit word. -/
def mask32 (x : Nat) : Nat := x % 4294967296

/-- 32-bit addition. -/
def add32 (x y : Nat) : Nat := mask32 (x + y)

/-- Right rotation of a 32-bit word. -/
def rotr (n x : Nat) : Nat := mask32 ((x >>> n) ||| (x <<< (32 - n)))

/-- Bitwise complement of a 32-bit word. -/
def not32 (x : Nat) : Nat := x ^^^ 4294967295

def ch (x y z : Nat) : Nat := (x &&& y) ^^^ (not32 x &&& z)

def maj (x y z : Nat) : Nat := (x &&& y) ^^^ (x &&& z) ^^^ (y &&& z)

def bigSigma0 (x : Nat) : Nat := rotr 2 x ^^^ rotr 13 x ^^^ rotr 22 x

def bigSigma1 (x : Nat) : Nat := rotr 6 x ^^^ rotr 11 x ^^^ rotr 25 x

def smallSigma0 (x : Nat) : Nat := rotr 7 x ^^^ rotr 18 x ^^^ (x >>> 3)

def smallSigma1 (x : Nat) : Nat := rotr 17 x ^^^ rotr 19 x ^^^ (x >>> 10)

/-- The 64 round constants (FIPS 180-4 section 4.2.2, written in decimal). -/
def K : List Nat :=
  [1116352408, 1899447441, 3049323471, 3921009573,
   961987163, 1508970993, 2453635748, 2870763221,
   3624381080, 310598401, 607225278, 1426881987,
   1925078388, 2162078206, 2614888103, 3248222580,
   3835390401, 4022224774, 264347078, 604807628,
   770255983, 1249150122, 1555081692, 1996064986,
   2554220882, 2821834349, 2952996808, 3210313671,
   3336571891, 3584528711, 113926993, 338241895,
   666307205, 773529912, 1294757372, 1396182291,
   1695183700, 1986661051, 2177026350, 2456956037,
   2730485921, 2820302411, 3259730800, 3345764771,
   3516065817, 3600352804, 4094571909, 275423344,
   430227734, 506948616, 659060556, 883997877,
   958139571, 1322822218, 1537002063, 1747873779,
   1955562222, 2024104815, 2227730452, 2361852424,
   2428436474, 2756734187, 3204031479, 3329325298]

/-- The initial hash value (FIPS 180-4 section 5.3.3, written in decimal). -/
def H0 : List Nat :=
  [1779033703, 3144134277, 1013904242, 2773480762,
   1359893119, 2600822924, 528734635, 1541459225]

/-- Merkle-Damgard padding: append 0x80, zero bytes up to 56 mod 64, then the
bit length as 8 big-endian bytes. -/
def pad (msg : List Nat) : List Nat :=
  let len := msg.length
  let zeros := (119 - (len % 64)) % 64
  msg ++ [0x80] ++ List.replicate zeros 0
    ++ ((List.range 8).map fun i => ((len * 8) >>> (8 * (7 - i))) &&& 0xFF)

/-- Split the padded message into the big-endian 32-bit words of block `b`. -/
def blockWords (padded : List Nat) (b : Nat) : List Nat :=
  (List.range 16).map fun i =>
    (padded.getD (64 * b + 4 * i) 0) <<< 24 ||| (padded.getD (64 * b + 4 * i + 1) 0) <<< 16
      ||| (padded.getD (64 * b + 4 * i + 2) 0) <<< 8 ||| padded.getD (64 * b + 4 * i + 3) 0

/-- The message schedule: extend the 16 block words to 64. -/
def schedule (ws : List Nat) : List Nat :=
  (List.range 48).foldl
    (fun acc _ =>
      let t := acc.length
      acc ++ [add32 (add32 (smallSigma1 (acc.getD (t - 2) 0)) (acc.getD (t - 7) 0))
               (add32 (smallSigma0 (acc.getD (t - 15) 0)) (acc.getD (t - 16) 0))])
    ws

/-- One compression round: state is the eight working variables. -/
def round (st : List Nat) (kw : Nat × Nat) : List Nat :=
  match st with
  | [a, b, c, d, e, f, g, h] =>
    let t1 := add32 h (add32 (bigSigma1 e) (add32 (ch e f g) (add32 kw.1 kw.2)))
    let t2 := add32 (bigSigma0 a) (maj a b c)
    [add32 t1 t2, a, b, c, add32 d t1, e, f, g]
  | _ => st

/-- Compress one block into the running hash. -/
def compress (h : List Nat) (ws : List Nat) : List Nat :=
  let out := ((K.zip (schedule ws)).foldl round h)
  (h.zip out).map fun p => add32 p.1 p.2

/-- SHA-256 of a byte list: pad, then compress each 64-byte block in order. -/
def sha256 (msg : List Nat) : List Nat :=
  let padded := pad msg
  (List.range (padded.length / 64)).foldl
    (fun h b => compress h (blockWords padded b)) H0

/-- A hexadecimal digit character (lowercase, as Python hexdigest). -/
def hexDigit (n : Nat) : Char :=
  if n < 10 then Char.ofNat (48 + n) else Char.ofNat (87 + n)

/-- Lowercase hex rendering of a 32-bit word. -/
def wordHex (w : Nat) : List Char :=
  (List.range 8).map fun i => hexDigit ((w >>> (4 * (7 - i))) &&& 0xF)

/-- UTF-8 encoding of one character (Python `str.encode()`). -/
def utf8Char (c : Char) : List Nat :=
  let n := c.toNat
  if n < 0x80 then [n]
  else if n < 0x800 then [0xC0 ||| (n >>> 6), 0x80 ||| (n &&& 0x3F)]
  else if n < 0x10000 then
    [0xE0 ||| (n >>> 12), 0x80 ||| ((n >>> 6) &&& 0x3F), 0x80 ||| (n &&& 0x3F)]
  else
    [0xF0 ||| (n >>> 18), 0x80 ||| ((n >>> 12) &&& 0x3F),
     0x80 ||| ((n >>> 6) &&& 0x3F), 0x80 ||| (n &&& 0x3F)]

/-- UTF-8 encoding of a string. -/
def encode (s : String) : List Nat := s.toList.flatMap utf8Char

/-- `hashlib.sha256(s.encode()).hexdigest()`: the lowercase hex digest. -/
def hexdigest (s : String) : String :=
  String.mk ((sha256 (encode s)).flatMap wordHex)

end SHA256

/-! ### hash_validation_analysis.py — `validate_email_hashes`

The function receives the rows of the email match join (lines 48-60): tuples
(dd_email, dd_hash, ad_email, ad_hash), and for each pair whose DataDirect email
is truthy with a truthy strip, recomputes
`expected = sha256(dd_email.strip().lower()).hexdigest().upper()` and compares
`dd_hash.upper()` and `ad_hash.upper()` against it independently; a falsy (None
or empty) stored hash counts as invalid.  Pairs where both sides are valid count
as valid, otherwise invalid, and the first five invalid pairs are kept as sample
mismatches. -/

/-- One row of the email sample join. -/
structure EmailSample where
  dd_email : SqlVal := none
  dd_hash : SqlVal := none
  ad_email : SqlVal := none
  ad_hash : SqlVal := none
deriving DecidableEq, Repr

/-- Python truthiness of an optional string: None and the empty string are falsy. -/
def pyTruthy (v : SqlVal) : Bool :=
  match v with
  | none => false
  | some s => !(s == "")

/-- Python `x or default` on an optional string (used for the NULL placeholders
in mismatch entries). -/
def pyOrDefault (v : SqlVal) (d : String) : String :=
  match v with
  | none => d
  | some s => if s == "" then d else s

/-- The guard `if dd_email and dd_email.strip():` (line 118). -/
def emailConsidered (p : EmailSample) : Bool :=
  pyTruthy p.dd_email && pyTruthy (p.dd_email.map sqlTrim)

/-- `expected_hash` (line 119): uppercased hex SHA-256 digest of the trimmed,
lowercased email. -/
def expectedHashOf (e : String) : String :=
  sqlUpper (SHA256.hexdigest (sqlLower (sqlTrim e)))

/-- Per-side validity (lines 121-122): `h and h.upper() == expected_hash`, so a
missing or empty stored hash is falsy (invalid) and otherwise the comparison is
case-insensitive. -/
def storedValid (h : SqlVal) (expected : String) : Bool :=
  match h with
  | none => false
  | some s => !(s == "") && (sqlUpper s == expected)

/-- The expected digest of a sample row. -/
def pairExpected (p : EmailSample) : String := expectedHashOf (p.dd_email.getD "")

/-- `dd_valid` of a sample row. -/
def ddValidOf (p : EmailSample) : Bool := storedValid p.dd_hash (pairExpected p)

/-- `ad_valid` of a sample row. -/
def adValidOf (p : EmailSample) : Bool := storedValid p.ad_hash (pairExpected p)

/-- A stored sample mismatch (lines 129-136). -/
structure Mismatch where
  email : String
  expected_hash : String
  dd_hash : String
  ad_hash : String
  dd_valid : Bool
  ad_valid : Bool
deriving DecidableEq, Repr

/-- Build the mismatch entry of an invalid pair (lines 129-136). -/
def mkMismatch (p : EmailSample) : Mismatch :=
  { email := p.dd_email.getD ""
    expected_hash := pairExpected p
    dd_hash := pyOrDefault p.dd_hash "NULL"
    ad_hash := pyOrDefault p.ad_hash "NULL"
    dd_valid := ddValidOf p
    ad_valid := adValidOf p }

/-- The validation loop (lines 112-136), carrying `valid_count`, `invalid_count`
and `mismatches` through the samples in order. -/
def processSamples :
    List EmailSample → Nat → Nat → List Mismatch → Nat × Nat × List Mismatch
  | [], v, i, m => (v, i, m)
  | p :: rest, v, i, m =>
    if emailConsidered p then
      if ddValidOf p && adValidOf p then processSamples rest (v + 1) i m
      else
        processSamples rest v (i + 1)
          (if m.length < 5 then m ++ [mkMismatch p] else m)
    else processSamples rest v i m

/-- A sample row that is processed (considered) and found invalid: at least one
stored hash missing, empty, or not matching the recomputed digest. -/
def invalidPairP (p : EmailSample) : Bool :=
  emailConsidered p && !(ddValidOf p && adValidOf p)

/-- The validation result model (lines 19-26). -/
structure HashValidationResult where
  field_type : String
  total_records : Nat
  valid_hashes : Nat
  invalid_hashes : Nat
  validation_rate : ℚ
  sample_mismatches : List Mismatch
deriving DecidableEq, Repr

/-- `validate_email_hashes` (lines 110-148): run the loop, then
`total = valid_count + invalid_count` and a guarded percentage. -/
def validate_email_hashes (samples : List EmailSample) : HashValidationResult :=
  let r := processSamples samples 0 0 []
  let total := r.1 + r.2.1
  { field_type := "Email"
    total_records := total
    valid_hashes := r.1
    invalid_hashes := r.2.1
    validation_rate := if total > 0 then (r.1 : ℚ) / total * 100 else 0
    sample_mismatches := r.2.2 }

/-! ### Counting lemmas -/

lemma sqlEq_none_left (y : SqlVal) : sqlEq none y = false := rfl

lemma sqlEq_none_right (x : SqlVal) : sqlEq x none = false := by
  cases x <;> rfl

lemma sqlEq_some_some (a b : String) : sqlEq (some a) (some b) = (a == b) := rfl

lemma sqlEq_isSome_left {x y : SqlVal} (h : sqlEq x y = true) : x.isSome = true := by
  cases x <;> cases y <;> simp_all [sqlEq]

lemma countP_product {α β : Type} (A : List α) (B : List β) (q : α × β → Bool) :
    (A.product B).countP q = (A.map fun a => B.countP fun b => q (a, b)).sum := by
  induction A with
  | nil => rfl
  | cons a A ih =>
    simp only [List.product, List.flatMap_cons, List.countP_append, List.map_cons,
      List.sum_cons, List.countP_map]
    rw [← ih]
    simp [List.product, Function.comp_def]

lemma sum_map_add_nat {β : Type} (B : List β) (f g : β → Nat) :
    (B.map fun b => f b + g b).sum = (B.map f).sum + (B.map g).sum := by
  induction B with
  | nil => rfl
  | cons b B ih => simp [ih]; omega

lemma sum_map_ite_nat {β : Type} (B : List β) (p : β → Bool) :
    (B.map fun b => if p b then 1 else 0).sum = B.countP p := by
  induction B with
  | nil => rfl
  | cons b B ih => simp [List.countP_cons, ih]; omega

lemma sum_countP_swap {α β : Type} (A : List α) (B : List β) (q : α → β → Bool) :
    (A.map fun a => B.countP fun b => q a b).sum
      = (B.map fun b => A.countP fun a => q a b).sum := by
  induction A with
  | nil => simp
  | cons a A ih =>
    simp only [List.map_cons, List.sum_cons, List.countP_cons]
    rw [sum_map_add_nat, ih, sum_map_ite_nat]
    have he : List.countP (q a) B = List.countP (fun b => q a b) B := rfl
    omega

lemma keyUnique_countP_le {α : Type} (key : α → SqlVal) (l : List α)
    (h : KeyUnique key l) (v : String) :
    l.countP (fun x => key x == some v) ≤ 1 := by
  induction l with
  | nil => simp
  | cons x l ih =>
    simp only [KeyUnique, List.pairwise_cons] at h
    rw [List.countP_cons]
    by_cases hx : key x = some v
    · have hz : l.countP (fun y => key y == some v) = 0 := by
        rw [List.countP_eq_zero]
        intro y hy
        rcases h.1 y hy with h0 | hne
        · rw [h0] at hx; cases hx
        · simp only [beq_iff_eq]
          intro hcon
          exact hne (by rw [hx, hcon])
      rw [hz]
      split <;> omega
    · have hl := ih h.2
      have hf : (key x == some v) = false := by simp [beq_iff_eq, hx]
      rw [hf, show (if (false = true) then (1 : Nat) else 0) = 0 from rfl]
      omega

lemma countP_eq_ite_of_le_one {β : Type} (B : List β) (p : β → Bool)
    (h : B.countP p ≤ 1) :
    B.countP p = if B.any p then 1 else 0 := by
  cases hA : B.any p
  · have hz : B.countP p = 0 := by
      rw [List.countP_eq_zero]
      intro b hb
      by_contra hc
      have : B.any p = true := List.any_eq_true.mpr ⟨b, hb, by simpa using hc⟩
      rw [hA] at this; cases this
    rw [hz, show (if (false = true) then (1 : Nat) else 0) = 0 from rfl]
  · have hpos : 0 < B.countP p := by
      rcases List.any_eq_true.mp hA with ⟨b, hb, hp⟩
      exact List.countP_pos_iff.mpr ⟨b, hb, hp⟩
    rw [show (if (true = true) then (1 : Nat) else 0) = 1 from rfl]
    omega

lemma any_congrP {β : Type} (B : List β) (p q : β → Bool) (h : ∀ b, p b = q b) :
    B.any p = B.any q := by
  induction B with
  | nil => rfl
  | cons b B ih => simp [List.any_cons, h b, ih]

/-- Accounting for an equality join against a side with unique keys: the join
pair count plus the anti-join count of the left side equals the count of left
rows with a non-null key. -/
lemma accounting {α β : Type} (keyA : α → SqlVal) (keyB : β → SqlVal)
    (A : List α) (B : List β)
    (hB : ∀ v : String, B.countP (fun b => keyB b == some v) ≤ 1) :
    (A.map fun d => B.countP fun b => sqlEq (keyA d) (keyB b)).sum
      + A.countP (fun d => (keyA d).isSome && !(B.any fun b => sqlEq (keyA d) (keyB b)))
      = A.countP fun d => (keyA d).isSome := by
  induction A with
  | nil => rfl
  | cons d A ih =>
    rw [List.map_cons, List.sum_cons, List.countP_cons, List.countP_cons]
    cases h : keyA d with
    | none =>
      have h1 : B.countP (fun b => sqlEq none (keyB b)) = 0 := by
        rw [List.countP_eq_zero]; intro b _; simp [sqlEq_none_left]
      rw [h1]
      rw [show (Option.isSome (none : SqlVal)
            && !(B.any fun b => sqlEq none (keyB b))) = false from Bool.false_and _]
      rw [show Option.isSome (none : SqlVal) = false from rfl]
      rw [show (if (false = true) then (1 : Nat) else 0) = 0 from rfl]
      omega
    | some v =>
      have hcongr : ∀ b : β, sqlEq (some v) (keyB b) = (keyB b == some v) := by
        intro b
        cases hb : keyB b
        · simp [sqlEq_none_right]
        · simp [sqlEq_some_some, beq_iff_eq, Eq.comm]
      have hcnt : B.countP (fun b => sqlEq (some v) (keyB b))
          = B.countP (fun b => keyB b == some v) :=
        List.countP_congr fun b _ => by rw [hcongr b]
      have hany : (B.any fun b => sqlEq (some v) (keyB b))
          = (B.any fun b => keyB b == some v) := any_congrP B _ _ hcongr
      rw [hcnt, hany, countP_eq_ite_of_le_one B _ (hB v)]
      rw [show Option.isSome (some v) = true from rfl]
      cases ha : B.any fun b => keyB b == some v
      · rw [show (if (false = true) then (1 : Nat) else 0) = 0 from rfl]
        rw [show (true && !false) = true from rfl]
        rw [show (if (true = true) then (1 : Nat) else 0) = 1 from rfl]
        omega
      · rw [show (true && !true) = false from rfl]
        rw [show (if (true = true) then (1 : Nat) else 0) = 1 from rfl]
        rw [show (if (false = true) then (1 : Nat) else 0) = 0 from rfl]
        omega

lemma sqlEq_comm (x y : SqlVal) : sqlEq x y = sqlEq y x := by
  cases x <;> cases y <;> simp [sqlEq, beq_iff_eq, Eq.comm]

lemma sqlEq_some_eq_beq (v : String) (y : SqlVal) : sqlEq (some v) y = (y == some v) := by
  cases y <;> simp [sqlEq, beq_iff_eq, Eq.comm]

lemma sqlEq_and_isSome (x y : SqlVal) :
    (sqlEq x y && (x.isSome && y.isSome)) = sqlEq x y := by
  cases x <;> cases y <;> simp [sqlEq]

lemma fieldMatches_eq_sum (key : NormRecord → SqlVal) (A B : List NormRecord) :
    DMR.fieldMatches key A B
      = (A.map fun d => B.countP fun a => sqlEq (key d) (key a)).sum := by
  unfold DMR.fieldMatches innerJoinCount
  rw [countP_product]
  exact congrArg List.sum (List.map_congr_left fun d _ =>
    List.countP_congr fun a _ => by rw [sqlEq_and_isSome])

lemma fullNameMatches_eq_sum (A B : List NormRecord) :
    CMA.fullNameMatches A B
      = (A.map fun d => B.countP fun a => sqlEq d.full_name a.full_name).sum := by
  unfold CMA.fullNameMatches innerJoinCount CMA.fullNameCond CMA.fullNameFilter
  rw [countP_product]
  exact congrArg List.sum (List.map_congr_left fun d _ =>
    List.countP_congr fun a _ => by rw [sqlEq_and_isSome])

lemma countP_sqlEq_none {β : Type} (key : β → SqlVal) (B : List β) :
    B.countP (fun a => sqlEq none (key a)) = 0 := by
  rw [List.countP_eq_zero]; intro a _; simp [sqlEq_none_left]

lemma countP_sqlEq_some (key : NormRecord → SqlVal) (B : List NormRecord) (v : String) :
    B.countP (fun a => sqlEq (some v) (key a)) = DMR.groupCount key B v :=
  List.countP_congr fun a _ => by rw [sqlEq_some_eq_beq]

lemma sum_eq_filterMap (key : NormRecord → SqlVal) (A B : List NormRecord) :
    (A.map fun d => B.countP fun a => sqlEq (key d) (key a)).sum
      = ((A.filterMap key).map fun v => DMR.groupCount key B v).sum := by
  induction A with
  | nil => rfl
  | cons d A ih =>
    rw [List.map_cons, List.sum_cons]
    cases h : key d with
    | none =>
      rw [countP_sqlEq_none, List.filterMap_cons_none h, ih, Nat.zero_add]
    | some v =>
      rw [countP_sqlEq_some, List.filterMap_cons_some h, List.map_cons,
        List.sum_cons, ih]

lemma groupCount_eq_count (key : NormRecord → SqlVal) (l : List NormRecord)
    (v : String) :
    DMR.groupCount key l v = (l.filterMap key).count v := by
  induction l with
  | nil => rfl
  | cons r l ih =>
    unfold DMR.groupCount at ih ⊢
    rw [List.countP_cons]
    cases h : key r with
    | none =>
      rw [List.filterMap_cons_none h]
      rw [show (((none : SqlVal) == some v)) = false from rfl]
      rw [show (if (false = true) then (1 : Nat) else 0) = 0 from rfl]
      omega
    | some w =>
      rw [List.filterMap_cons_some h, List.count_cons]
      rw [show (((some w : SqlVal) == some v)) = (w == v) from rfl]
      rw [show ((w == v) : Bool) = (v == w) from by simp [beq_iff_eq, Eq.comm]]
      omega

lemma sum_map_eq_finset_count (l : List String) (f : String → Nat) :
    (l.map f).sum = ∑ v ∈ l.toFinset, l.count v * f v := by
  simpa [smul_eq_mul] using Finset.sum_list_map_count l f

lemma groupCount_eq_zero_of_not_mem (key : NormRecord → SqlVal)
    (B : List NormRecord) (v : String) (h : v ∉ B.filterMap key) :
    DMR.groupCount key B v = 0 := by
  rw [groupCount_eq_count]
  exact List.count_eq_zero.mpr h

/-- The cartesian grouping identity behind claim C4: the match count is the sum
over distinct key values present on both sides of the product of group sizes. -/
lemma fieldMatches_cartesian (key : NormRecord → SqlVal) (A B : List NormRecord) :
    DMR.fieldMatches key A B
      = ∑ v ∈ (A.filterMap key).toFinset ∩ (B.filterMap key).toFinset,
          DMR.groupCount key A v * DMR.groupCount key B v := by
  rw [fieldMatches_eq_sum, sum_eq_filterMap, sum_map_eq_finset_count]
  have hstep :
      (∑ v ∈ (A.filterMap key).toFinset ∩ (B.filterMap key).toFinset,
          DMR.groupCount key A v * DMR.groupCount key B v)
        = ∑ v ∈ (A.filterMap key).toFinset ∩ (B.filterMap key).toFinset,
            (A.filterMap key).count v * DMR.groupCount key B v :=
    Finset.sum_congr rfl fun v _ => by rw [groupCount_eq_count key A v]
  rw [hstep]
  refine (Finset.sum_subset Finset.inter_subset_left ?_).symm
  intro v hvA hvI
  have hvB : v ∉ B.filterMap key := by
    intro hmem
    exact hvI (Finset.mem_inter.mpr ⟨hvA, List.mem_toFinset.mpr hmem⟩)
  rw [groupCount_eq_zero_of_not_mem key B v hvB, Nat.mul_zero]

/-- What the validation loop accumulates in `mismatches`: whatever it starts
with, plus the mismatch entries of the first invalid pairs, capped at five
entries in total. -/
lemma processSamples_mismatches (samples : List EmailSample) :
    ∀ (v i : Nat) (m : List Mismatch),
      (processSamples samples v i m).2.2
        = m ++ ((samples.filter invalidPairP).map mkMismatch).take (5 - m.length) := by
  induction samples with
  | nil => intro v i m; simp [processSamples]
  | cons p rest ih =>
    intro v i m
    cases hc : emailConsidered p with
    | false =>
      rw [show processSamples (p :: rest) v i m = processSamples rest v i m from by
        simp [processSamples, hc]]
      rw [show (p :: rest).filter invalidPairP = rest.filter invalidPairP from by
        simp [List.filter_cons, invalidPairP, hc]]
      exact ih v i m
    | true =>
      cases hd : ddValidOf p && adValidOf p with
      | true =>
        rw [show processSamples (p :: rest) v i m = processSamples rest (v + 1) i m
          from by simp [processSamples, hc, hd]]
        rw [show (p :: rest).filter invalidPairP = rest.filter invalidPairP from by
          simp [List.filter_cons, invalidPairP, hc, hd]]
        exact ih (v + 1) i m
      | false =>
        rw [show processSamples (p :: rest) v i m
            = processSamples rest v (i + 1)
                (if m.length < 5 then m ++ [mkMismatch p] else m)
          from by simp [processSamples, hc, hd]]
        rw [show (p :: rest).filter invalidPairP = p :: rest.filter invalidPairP from by
          simp [List.filter_cons, invalidPairP, hc, hd]]
        by_cases hm : m.length < 5
        · rw [if_pos hm, ih]
          obtain ⟨k, hk⟩ : ∃ k, 5 - m.length = k + 1 :=
            ⟨5 - m.length - 1, by omega⟩
          have hk2 : 5 - (m ++ [mkMismatch p]).length = k := by
            rw [List.length_append]; simp; omega
          rw [hk2, List.map_cons, hk, List.take_succ_cons, List.append_assoc]
          rfl
        · rw [if_neg hm, ih]
          have h0 : 5 - m.length = 0 := by omega
          rw [h0, List.take_zero, List.take_zero]

/-- The valid and invalid counters of the loop sum to the number of considered
pairs. -/
lemma processSamples_total (samples : List EmailSample) :
    ∀ (v i : Nat) (m : List Mismatch),
      (processSamples samples v i m).1 + (processSamples samples v i m).2.1
        = v + i + samples.countP emailConsidered := by
  induction samples with
  | nil => intro v i m; simp [processSamples]
  | cons p rest ih =>
    intro v i m
    rw [List.countP_cons]
    cases hc : emailConsidered p with
    | false =>
      rw [show processSamples (p :: rest) v i m = processSamples rest v i m from by
        simp [processSamples, hc]]
      rw [show (if (false = true) then (1 : Nat) else 0) = 0 from rfl]
      rw [ih]; omega
    | true =>
      rw [show (if (true = true) then (1 : Nat) else 0) = 1 from rfl]
      cases hd : ddValidOf p && adValidOf p with
      | true =>
        rw [show processSamples (p :: rest) v i m = processSamples rest (v + 1) i m
          from by simp [processSamples, hc, hd]]
        rw [ih]; omega
      | false =>
        rw [show processSamples (p :: rest) v i m
            = processSamples rest v (i + 1)
                (if m.length < 5 then m ++ [mkMismatch p] else m)
          from by simp [processSamples, hc, hd]]
        rw [ih]; omega

/-! ### The claims -/

/-- Claim C1, counterexample: in `analyze_compound_matches`, for the NameSuburb
key with side A empty and side B holding one record with only a first name (so
key values are vacuously unique per record on both sides), the B-side equation
fails: matches + b_only = 0 + 1 while b_total_with_key = 0, because the derived
B-side anti-join WHERE clause is only `a.first_name IS NOT NULL`, not the
eligibility filter of the match count. -/
theorem claimC1_counterexample :
    KeyUnique CMA.nsKey ([] : List NormRecord)
      ∧ KeyUnique CMA.nsKey [({ first_name := some "X" } : NormRecord)]
      ∧ CMA.nsKey ({ first_name := some "X" } : NormRecord) = none
      ∧ CMA.nsMatches [] [{ first_name := some "X" }]
          + CMA.nsADOnly [] [{ first_name := some "X" }]
          ≠ CMA.nsADTotal [{ first_name := some "X" }] := by
  decide

/-- Claim C1 (amended): for the FullName key of `analyze_compound_matches`,
whose eligibility filter has a single conjunct per side so the split-derived
anti-join filters coincide with it, per-side key uniqueness yields
matches + dd_only = dd_total and matches + ad_only = ad_total; for the
multi-field keys the derived anti-join filters differ from the match filter
(the B-side filter keeps only the first conjunct) and the accounting fails. -/
theorem claimC1_amended (A B : List NormRecord)
    (hA : KeyUnique (fun r : NormRecord => r.full_name) A)
    (hB : KeyUnique (fun r : NormRecord => r.full_name) B) :
    CMA.fullNameMatches A B + CMA.fullNameDDOnly A B = CMA.fullNameDDTotal A
      ∧ CMA.fullNameMatches A B + CMA.fullNameADOnly A B = CMA.fullNameADTotal B := by
  constructor
  · rw [fullNameMatches_eq_sum]
    exact accounting (fun r : NormRecord => r.full_name)
      (fun r : NormRecord => r.full_name) A B
      (keyUnique_countP_le (fun r : NormRecord => r.full_name) B hB)
  · rw [fullNameMatches_eq_sum, sum_countP_swap]
    rw [List.map_congr_left (fun b _ =>
      List.countP_congr fun a _ => by rw [sqlEq_comm] :
        ∀ b ∈ B, (A.countP fun a => sqlEq a.full_name b.full_name)
          = A.countP fun a => sqlEq b.full_name a.full_name)]
    have ho : CMA.fullNameADOnly A B
        = B.countP fun a =>
            a.full_name.isSome && !(A.any fun d => sqlEq a.full_name d.full_name) := by
      unfold CMA.fullNameADOnly antiJoinCount CMA.fullNameCond
      exact List.countP_congr fun a _ => by
        rw [any_congrP A (fun d => sqlEq d.full_name a.full_name)
          (fun d => sqlEq a.full_name d.full_name) (fun d => sqlEq_comm _ _)]
    rw [ho]
    exact accounting (fun r : NormRecord => r.full_name)
      (fun r : NormRecord => r.full_name) B A
      (keyUnique_countP_le (fun r : NormRecord => r.full_name) A hA)

/-- Claim C1, witness for the amended theorem at concrete two-and-one record
collections with unique full names. -/
theorem claimC1_witness :
    CMA.fullNameMatches
        [{ full_name := some "ANN A" }, { full_name := some "BOB B" }]
        [{ full_name := some "BOB B" }]
      + CMA.fullNameDDOnly
          [{ full_name := some "ANN A" }, { full_name := some "BOB B" }]
          [{ full_name := some "BOB B" }]
      = CMA.fullNameDDTotal
          [{ full_name := some "ANN A" }, { full_name := some "BOB B" }]
    ∧ CMA.fullNameMatches
        [{ full_name := some "ANN A" }, { full_name := some "BOB B" }]
        [{ full_name := some "BOB B" }]
      + CMA.fullNameADOnly
          [{ full_name := some "ANN A" }, { full_name := some "BOB B" }]
          [{ full_name := some "BOB B" }]
      = CMA.fullNameADTotal [{ full_name := some "BOB B" }] :=
  claimC1_amended
    [{ full_name := some "ANN A" }, { full_name := some "BOB B" }]
    [{ full_name := some "BOB B" }] (by decide) (by decide)

/-- Claim C2, counterexample: the normalization `UPPER(TRIM(col))` of
`create_optimized_database` maps a whitespace-only value to the empty string,
not to NULL (the spec-modelled `normalizeSpec` maps it to NULL), and two
whitespace-only raw values DO match each other after normalization. -/
theorem claimC2_counterexample :
    normalizeUpperTrim (some "   ") = some ""
      ∧ normalizeUpperTrim (some "   ") ≠ none
      ∧ normalizeSpec (some "   ") = none
      ∧ sqlEq (normalizeUpperTrim (some "")) (normalizeUpperTrim (some "   ")) = true := by
  decide

/-- Claim C2 (amended): normalize(v) is NULL exactly when v is NULL; a
whitespace-only value normalizes to the empty string, a real value equal to the
normalization of any other whitespace-only value, so two whitespace-only records
match each other on the field, while NULL values never match anything. -/
theorem claimC2_amended (s t : String) (v : SqlVal)
    (hs : sqlTrim s = "") (ht : sqlTrim t = "") :
    (normalizeUpperTrim v = none ↔ v = none)
      ∧ normalizeUpperTrim (some s) = some ""
      ∧ sqlEq (normalizeUpperTrim (some s)) (normalizeUpperTrim (some t)) = true
      ∧ sqlEq none (normalizeUpperTrim v) = false
      ∧ sqlEq (normalizeUpperTrim v) none = false := by
  have hns : normalizeUpperTrim (some s) = some "" := by
    rw [show normalizeUpperTrim (some s) = some (sqlUpper (sqlTrim s)) from rfl, hs]
    decide
  have hnt : normalizeUpperTrim (some t) = some "" := by
    rw [show normalizeUpperTrim (some t) = some (sqlUpper (sqlTrim t)) from rfl, ht]
    decide
  refine ⟨?_, hns, ?_, ?_, ?_⟩
  · cases v <;> simp [normalizeUpperTrim]
  · rw [hns, hnt]; decide
  · exact sqlEq_none_left _
  · exact sqlEq_none_right _

/-- Claim C2, witness for the amended theorem at two concrete whitespace-only
values and a real value. -/
theorem claimC2_witness :
    (normalizeUpperTrim (some "x") = none ↔ (some "x" : SqlVal) = none)
      ∧ normalizeUpperTrim (some " ") = some ""
      ∧ sqlEq (normalizeUpperTrim (some " ")) (normalizeUpperTrim (some "  ")) = true
      ∧ sqlEq none (normalizeUpperTrim (some "x")) = false
      ∧ sqlEq (normalizeUpperTrim (some "x")) none = false :=
  claimC2_amended " " "  " (some "x") (by decide) (by decide)

/-- Claim C3, counterexample: the per-side comparison of `validate_email_hashes`
is case-insensitive, so changing the stored DataDirect hash from the valid
lowercase digest to the distinct uppercase digest does NOT flip the validity
flag to false. -/
theorem claimC3_counterexample :
    ddValidOf { dd_email := some "Jane.Doe@Example.com"
                dd_hash := some (SHA256.hexdigest "jane.doe@example.com")
                ad_email := some "Jane.Doe@Example.com"
                ad_hash := some (expectedHashOf "Jane.Doe@Example.com") } = true
      ∧ (some (expectedHashOf "Jane.Doe@Example.com") : SqlVal)
          ≠ some (SHA256.hexdigest "jane.doe@example.com")
      ∧ ddValidOf { dd_email := some "Jane.Doe@Example.com"
                    dd_hash := some (expectedHashOf "Jane.Doe@Example.com")
                    ad_email := some "Jane.Doe@Example.com"
                    ad_hash := some (expectedHashOf "Jane.Doe@Example.com") } = true
      ∧ adValidOf { dd_email := some "Jane.Doe@Example.com"
                    dd_hash := some (expectedHashOf "Jane.Doe@Example.com")
                    ad_email := some "Jane.Doe@Example.com"
                    ad_hash := some (expectedHashOf "Jane.Doe@Example.com") }
          = adValidOf { dd_email := some "Jane.Doe@Example.com"
                        dd_hash := some (SHA256.hexdigest "jane.doe@example.com")
                        ad_email := some "Jane.Doe@Example.com"
                        ad_hash := some (expectedHashOf "Jane.Doe@Example.com") } := by
  refine ⟨by decide, by decide, by decide, rfl⟩

/-- Claim C3 (amended): each side is classified valid exactly when its stored
hash, upper-cased, equals the expected digest; changing one side's stored hash
from a valid value to any value that still differs AFTER upper-casing flips that
side's flag to false, and the other side's flag is unchanged. -/
theorem claimC3_amended (p : EmailSample) (w : String)
    (_hvalid : ddValidOf p = true) (hw : sqlUpper w ≠ pairExpected p) :
    ddValidOf { p with dd_hash := some w } = false
      ∧ adValidOf { p with dd_hash := some w } = adValidOf p := by
  constructor
  · have hred : ddValidOf { p with dd_hash := some w }
        = (!(w == "") && (sqlUpper w == pairExpected p)) := rfl
    rw [hred, beq_eq_false_iff_ne.mpr hw, Bool.and_false]
  · rfl

/-- Claim C3, witness for the amended theorem: replacing a valid stored hash by
the string X (which upper-cases to X, not to the digest) invalidates the
DataDirect side and leaves the AliveData side unchanged. -/
theorem claimC3_witness :
    ddValidOf { ({ dd_email := some "Jane.Doe@Example.com"
                   dd_hash := some (SHA256.hexdigest "jane.doe@example.com")
                   ad_email := some "Jane.Doe@Example.com"
                   ad_hash := some (expectedHashOf "Jane.Doe@Example.com") } : EmailSample)
                with dd_hash := some "X" } = false
      ∧ adValidOf { ({ dd_email := some "Jane.Doe@Example.com"
                       dd_hash := some (SHA256.hexdigest "jane.doe@example.com")
                       ad_email := some "Jane.Doe@Example.com"
                       ad_hash := some (expectedHashOf "Jane.Doe@Example.com") } : EmailSample)
                    with dd_hash := some "X" }
          = adValidOf { dd_email := some "Jane.Doe@Example.com"
                        dd_hash := some (SHA256.hexdigest "jane.doe@example.com")
                        ad_email := some "Jane.Doe@Example.com"
                        ad_hash := some (expectedHashOf "Jane.Doe@Example.com") } :=
  claimC3_amended
    { dd_email := some "Jane.Doe@Example.com"
      dd_hash := some (SHA256.hexdigest "jane.doe@example.com")
      ad_email := some "Jane.Doe@Example.com"
      ad_hash := some (expectedHashOf "Jane.Doe@Example.com") }
    "X" (by decide) (by decide)

/-- Claim C4: in `generate_detailed_match_report`, the match count of a key is
the sum, over the distinct key values present on both sides, of the product of
the two group sizes (cartesian equi-join semantics); in particular three side-A
records and two side-B records sharing the key value SMITH VIC contribute
3 * 2 = 6 matches, not min(3,2) = 2. -/
theorem claimC4 :
    (∀ (key : NormRecord → SqlVal) (A B : List NormRecord),
      DMR.fieldMatches key A B
        = ∑ v ∈ (A.filterMap key).toFinset ∩ (B.filterMap key).toFinset,
            DMR.groupCount key A v * DMR.groupCount key B v)
    ∧ DMR.fieldMatches (fun r => r.full_name)
        [{ full_name := some "SMITH VIC" }, { full_name := some "SMITH VIC" },
         { full_name := some "SMITH VIC" }]
        [{ full_name := some "SMITH VIC" }, { full_name := some "SMITH VIC" }] = 6
    ∧ min 3 2 = 2 :=
  ⟨fieldMatches_cartesian, by decide, rfl⟩

/-- Claim C5, counterexample: the compound key built by
`create_optimized_database` is `UPPER(TRIM(f1 || ' ' || f2))`, not the join of
the per-field normalized values by single spaces: a trailing space inside
first_name survives as a double space; and a whitespace-only constituent (which
normalizes to NULL under the spec normalization modelled by `normalizeSpec`)
still yields a key. -/
theorem claimC5_counterexample :
    (mkSourceRecord { first_name := some "Jane ", surname := some "Doe" }).full_name
        = some "JANE  DOE"
      ∧ sqlJoinSpace
          [normalizeUpperTrim (some "Jane "), normalizeUpperTrim (some "Doe")]
          = some "JANE DOE"
      ∧ (mkSourceRecord { first_name := some "Jane ", surname := some "Doe" }).full_name
          ≠ sqlJoinSpace
              [normalizeUpperTrim (some "Jane "), normalizeUpperTrim (some "Doe")]
      ∧ (mkSourceRecord { first_name := some " ", surname := some "Doe" }).full_name
          = some "DOE"
      ∧ normalizeSpec (some " ") = none := by
  decide

/-- Claim C5 (amended): the full_name compound key is
`UPPER(TRIM(first_name || ' ' || surname))` and is NULL exactly when a raw
constituent is NULL (a whitespace-only constituent still yields a key); a record
with a NULL constituent has a NULL key and contributes to neither the matches,
nor the dd_only anti-join count, nor the dd_total of the FullName key. -/
theorem claimC5_amended (r : RawRecord) (A B : List NormRecord)
    (h : r.surname = none) :
    (mkSourceRecord r).full_name = none
      ∧ CMA.fullNameMatches (mkSourceRecord r :: A) B = CMA.fullNameMatches A B
      ∧ CMA.fullNameDDOnly (mkSourceRecord r :: A) B = CMA.fullNameDDOnly A B
      ∧ CMA.fullNameDDTotal (mkSourceRecord r :: A) = CMA.fullNameDDTotal A := by
  have hfull : (mkSourceRecord r).full_name = none := by
    cases hf : r.first_name <;>
      simp [mkSourceRecord, sqlJoinSpace, sqlConcat, normalizeUpperTrim, h, hf]
  refine ⟨hfull, ?_, ?_, ?_⟩
  · rw [fullNameMatches_eq_sum, fullNameMatches_eq_sum, List.map_cons,
      List.sum_cons, hfull, countP_sqlEq_none (fun a : NormRecord => a.full_name) B,
      Nat.zero_add]
  · unfold CMA.fullNameDDOnly antiJoinCount
    rw [List.countP_cons]
    rw [show ((mkSourceRecord r).full_name.isSome
          && !(B.any fun b => CMA.fullNameCond (mkSourceRecord r) b)) = false from by
      rw [hfull]; rfl]
    rw [show (if (false = true) then (1 : Nat) else 0) = 0 from rfl]
    exact Nat.add_zero _
  · unfold CMA.fullNameDDTotal
    rw [List.countP_cons, hfull]
    rw [show Option.isSome (none : SqlVal) = false from rfl]
    rw [show (if (false = true) then (1 : Nat) else 0) = 0 from rfl]
    exact Nat.add_zero _

/-- Claim C5, witness for the amended theorem at a record with a first name and
no surname, against singleton collections. -/
theorem claimC5_witness :
    (mkSourceRecord { first_name := some "Jane" }).full_name = none
      ∧ CMA.fullNameMatches
          (mkSourceRecord { first_name := some "Jane" } :: [{ full_name := some "BOB B" }])
          [{ full_name := some "BOB B" }]
        = CMA.fullNameMatches [{ full_name := some "BOB B" }] [{ full_name := some "BOB B" }]
      ∧ CMA.fullNameDDOnly
          (mkSourceRecord { first_name := some "Jane" } :: [{ full_name := some "BOB B" }])
          [{ full_name := some "BOB B" }]
        = CMA.fullNameDDOnly [{ full_name := some "BOB B" }] [{ full_name := some "BOB B" }]
      ∧ CMA.fullNameDDTotal
          (mkSourceRecord { first_name := some "Jane" } :: [{ full_name := some "BOB B" }])
        = CMA.fullNameDDTotal [{ full_name := some "BOB B" }] :=
  claimC5_amended { first_name := some "Jane" }
    [{ full_name := some "BOB B" }] [{ full_name := some "BOB B" }] rfl

/-- Claim C6: the statistics of `generate_detailed_match_report` are a pure
function of (matches, dd_total, ad_total); every ratio is 0 when its denominator
(dd_total, ad_total, the union size dd_total + ad_total - matches, or
min(dd_total, ad_total)) is zero, and all four ratios are 0 when matches is 0 —
no division error is possible. -/
theorem claimC6 (m a b : Nat) :
    (DMR.computeStats m 0 b).dd_match_rate = 0
      ∧ (DMR.computeStats m a 0).ad_match_rate = 0
      ∧ (DMR.computeStats m 0 b).overlap_coefficient = 0
      ∧ (DMR.computeStats m a 0).overlap_coefficient = 0
      ∧ (DMR.computeStats (a + b) a b).jaccard_index = 0
      ∧ (DMR.computeStats 0 a b).dd_match_rate = 0
      ∧ (DMR.computeStats 0 a b).ad_match_rate = 0
      ∧ (DMR.computeStats 0 a b).overlap_coefficient = 0
      ∧ (DMR.computeStats 0 a b).jaccard_index = 0 := by
  have hz : ¬(((a : ℤ) + (b : ℤ) - ((a + b : Nat) : ℤ)) > 0) := by push_cast; omega
  refine ⟨?_, ?_, ?_, ?_, ?_, ?_, ?_, ?_, ?_⟩
  · simp [DMR.computeStats]
  · simp [DMR.computeStats]
  · simp [DMR.computeStats]
  · simp [DMR.computeStats]
  · simp only [DMR.computeStats]
    rw [if_neg hz]
  · simp [DMR.computeStats]
  · simp [DMR.computeStats]
  · simp [DMR.computeStats]
  · simp only [DMR.computeStats]
    split <;> simp

/-- Claim C7: one DataDirect record with surname Smith against one ad_consumers
record with surname smith followed by a space: the LastName analysis of
`comprehensive_match_analysis` reports matches = 1, dd_only = 0, ac_only = 0
(case and surrounding whitespace are normalized away by `UPPER(TRIM(...))`). -/
theorem claimC7 :
    CompMA.lastNameMatches [{ Surname := some "Smith" }] [{ surname := some "smith " }] = 1
      ∧ CompMA.lastNameDDOnly [{ Surname := some "Smith" }] [{ surname := some "smith " }] = 0
      ∧ CompMA.lastNameACOnly [{ Surname := some "Smith" }] [{ surname := some "smith " }] = 0 := by
  decide

/-- Claim C8, counterexample: in the per-key loop of
`comprehensive_anti_join_analysis`, a key whose computation raises is caught and
skipped with `continue` — the surviving keys are processed, but the failed key
(EmailStd here) is absent from the final result list rather than surfaced as an
explicit skipped entry. -/
theorem claimC8_counterexample :
    (runDirectMatches
        [("FullName",
           Except.ok { match_name := "FullName", match_count := 5, tpd_only := 1, ac_only := 2 }),
         ("EmailStd", Except.error "Binder Error"),
         ("Mobile",
           Except.ok { match_name := "Mobile", match_count := 7, tpd_only := 3, ac_only := 4 })]).map
        (fun r => r.match_name)
      = ["FullName", "Mobile"] := by
  decide

/-- Claim C8 (amended): a per-key error is caught and every other requested key
is still computed, but the failed key is only logged: the final result list is
exactly the one obtained without the failed key, so the failure is silently
omitted from the result set rather than surfaced as an explicit entry. -/
theorem claimC8_amended (xs ys : List (String × Except String AntiJoinRow))
    (n e : String) :
    runDirectMatches (xs ++ (n, Except.error e) :: ys) = runDirectMatches (xs ++ ys) := by
  unfold runDirectMatches
  rw [List.foldl_append, List.foldl_append, List.foldl_cons]

/-- Claim C9: the sample mismatches of `validate_email_hashes` are exactly the
mismatch entries of the first five invalid pairs, in input order, and never more
than five, however many pairs are invalid. -/
theorem claimC9 (samples : List EmailSample) :
    (validate_email_hashes samples).sample_mismatches
        = ((samples.filter invalidPairP).take 5).map mkMismatch
      ∧ (validate_email_hashes samples).sample_mismatches.length ≤ 5 := by
  have h : (validate_email_hashes samples).sample_mismatches
      = ((samples.filter invalidPairP).map mkMismatch).take 5 := by
    show (processSamples samples 0 0 []).2.2 = _
    rw [processSamples_mismatches samples 0 0 []]
    simp
  constructor
  · rw [h, List.map_take]
  · rw [h, List.length_take]
    omega

/-- Claim C10: a pair whose DataDirect email is missing, empty or
whitespace-only is counted in neither valid_hashes nor invalid_hashes, so
total_records is the number of pairs with a truthy trimmed DataDirect email and
can be strictly smaller than the number of supplied pairs. -/
theorem claimC10 (samples : List EmailSample) :
    (validate_email_hashes samples).total_records = samples.countP emailConsidered
      ∧ (validate_email_hashes samples).valid_hashes
          + (validate_email_hashes samples).invalid_hashes
          = (validate_email_hashes samples).total_records
      ∧ (validate_email_hashes
          [{ dd_email := some "   ", dd_hash := some "AB" }]).total_records = 0
      ∧ ([({ dd_email := some "   ", dd_hash := some "AB" } : EmailSample)]).length = 1 := by
  refine ⟨?_, rfl, by decide, rfl⟩
  unfold validate_email_hashes
  have h := processSamples_total samples 0 0 []
  simpa using h

/-- The SHA-256 embedding reproduces the FIPS 180-4 reference digest of the
three-byte message abc. -/
theorem sha256_reference_vector :
    SHA256.hexdigest "abc"
      = "ba7816bf8f01cfea414140de5dae2223b00361a396177a9cb410ff61f20015ad" := by
  decide

/-- In contrast with the NULL-propagating compound keys, the all-fields
concatenation of comprehensive_match_analysis.py (lines 108-115) COALESCEs every
constituent to the empty string: even the fully NULL record has a non-null key. -/
theorem allFieldsKey_of_all_null :
    CompMA.allFieldsKey {} = some "" := by
  decide

end DataCmp
